import Mathlib

/-!
Verification of the tool-registration and request-dispatch layer of a set of
MCP tool-server scripts, together with the leaf handlers they register.
Handlers (arithmetic, notes, news, weather, rag module load) are embedded
from the Python source; network and file effects are made explicit
parameters.  The registry/dispatch contract itself is provided by the
third-party FastMCP library, so it is modelled from the specification.
-/

/-- A Python exception, reduced to its class name and message. -/
structure PyError where
  kind : String
  msg : String
  deriving DecidableEq

/-- A Python runtime value, restricted to the types the registered tools use. -/
inductive PyVal
  | int (n : Int)
  | str (s : String)
  | rat (q : Rat)
  deriving DecidableEq

/-- Type tags for tool parameter and return schemas. -/
inductive PyType
  | int
  | str
  | float
  deriving DecidableEq

/-- The runtime type of a value. Python floats are idealised as rationals. -/
def PyVal.typeOf : PyVal → PyType
  | .int _ => .int
  | .str _ => .str
  | .rat _ => .float

/-- A named, typed parameter of a tool's input schema. -/
structure Param where
  name : String
  ty : PyType

/-- Modelled from the spec: a Tool Descriptor — unique name, ordered input
parameter schema, return type tag, and the handler callable.  The concrete
descriptors below take their schemas and handlers from the source files. -/
structure ToolDescriptor where
  name : String
  params : List Param
  retTy : PyType
  handler : List (String × PyVal) → Except PyError PyVal

/-- Modelled from the spec: an Invocation Result — success payload or one of
the three structured failure kinds. -/
inductive DispatchResult
  | success (v : PyVal)
  | unknownTool (name : String)
  | invalidArguments (offending : List String)
  | handlerError (msg : String)
  deriving DecidableEq

/-- True when the supplied arguments bind the parameter to a value of the
declared type. -/
def paramOk (args : List (String × PyVal)) (p : Param) : Bool :=
  match args.lookup p.name with
  | some v => v.typeOf == p.ty
  | none => false

/-- The offending parameters of an invocation: declared parameters that are
missing or ill-typed, followed by supplied names that are not declared. -/
def badParams (ps : List Param) (args : List (String × PyVal)) : List String :=
  (ps.filter (fun p => !paramOk args p)).map Param.name
    ++ (args.map Prod.fst).filter (fun n => ps.all (fun p => p.name != n))

/-- Registry lookup by tool name. -/
def mcpFind (reg : List ToolDescriptor) (name : String) : Option ToolDescriptor :=
  reg.find? (fun d => d.name == name)

/-- Modelled from the spec: dispatch, instrumented with a flag recording
whether the handler was invoked.  Looks up the descriptor (UnknownTool if
absent), validates arguments (InvalidArguments before the handler runs),
invokes the handler and wraps a raised exception as HandlerError carrying
the original message. -/
def dispatchT (reg : List ToolDescriptor) (name : String)
    (args : List (String × PyVal)) : DispatchResult × Bool :=
  match mcpFind reg name with
  | none => (.unknownTool name, false)
  | some d =>
    let bad := badParams d.params args
    if bad.isEmpty then
      match d.handler args with
      | .ok v => (.success v, true)
      | .error e => (.handlerError e.msg, true)
    else (.invalidArguments bad, false)

/-- Modelled from the spec: the dispatch entry point. -/
def dispatch (reg : List ToolDescriptor) (name : String)
    (args : List (String × PyVal)) : DispatchResult :=
  (dispatchT reg name args).1

/-- Modelled from the spec: register fails if the name is already taken. -/
def register (reg : List ToolDescriptor) (d : ToolDescriptor) :
    Except String (List ToolDescriptor) :=
  if reg.any (fun t => t.name == d.name) then
    .error ("duplicate tool name " ++ d.name)
  else
    .ok (reg ++ [d])

/-- Build a registry at startup by registering each descriptor in order. -/
def registerAll (ds : List ToolDescriptor) : Except String (List ToolDescriptor) :=
  ds.foldlM register []

/-- Serving one request: the registry is read-only, only a result comes back. -/
def serve (reg : List ToolDescriptor) (name : String)
    (args : List (String × PyVal)) : List ToolDescriptor × DispatchResult :=
  (reg, dispatch reg name args)

/-- Serving a batch of requests one at a time. -/
def serveAll (reg : List ToolDescriptor)
    (reqs : List (String × List (String × PyVal))) : List DispatchResult :=
  reqs.map (fun r => dispatch reg r.1 r.2)

/-! Handlers of mcp-custom-1/mcp_custom.py, embedded from the source.  Each
handler receives the argument mapping the dispatcher validated. -/

/-- Python float division of two ints, idealised as exact rational division. -/
def pyDiv (a b : Int) : Rat := (a : Rat) / (b : Rat)

/-- Handler of the add tool: returns a + b. -/
def addHandler (args : List (String × PyVal)) : Except PyError PyVal :=
  match args.lookup "a", args.lookup "b" with
  | some (.int a), some (.int b) => .ok (.int (a + b))
  | _, _ => .error ⟨"TypeError", "invalid arguments"⟩

/-- Handler of the subtract tool: returns a - b. -/
def subtractHandler (args : List (String × PyVal)) : Except PyError PyVal :=
  match args.lookup "a", args.lookup "b" with
  | some (.int a), some (.int b) => .ok (.int (a - b))
  | _, _ => .error ⟨"TypeError", "invalid arguments"⟩

/-- Handler of the multiply tool: returns a * b. -/
def multiplyHandler (args : List (String × PyVal)) : Except PyError PyVal :=
  match args.lookup "a", args.lookup "b" with
  | some (.int a), some (.int b) => .ok (.int (a * b))
  | _, _ => .error ⟨"TypeError", "invalid arguments"⟩

/-- Handler of the divide tool: raises ValueError on b = 0, else returns a / b. -/
def divideHandler (args : List (String × PyVal)) : Except PyError PyVal :=
  match args.lookup "a", args.lookup "b" with
  | some (.int a), some (.int b) =>
    if b = 0 then .error ⟨"ValueError", "Division by zero is not allowed"⟩
    else .ok (.rat (pyDiv a b))
  | _, _ => .error ⟨"TypeError", "invalid arguments"⟩

/-- Descriptor of the add tool, schema from the source signature. -/
def addDesc : ToolDescriptor :=
  ⟨"add", [⟨"a", .int⟩, ⟨"b", .int⟩], .int, addHandler⟩

/-- Descriptor of the subtract tool, schema from the source signature. -/
def subtractDesc : ToolDescriptor :=
  ⟨"subtract", [⟨"a", .int⟩, ⟨"b", .int⟩], .int, subtractHandler⟩

/-- Descriptor of the multiply tool, schema from the source signature. -/
def multiplyDesc : ToolDescriptor :=
  ⟨"multiply", [⟨"a", .int⟩, ⟨"b", .int⟩], .int, multiplyHandler⟩

/-- Descriptor of the divide tool, schema from the source signature. -/
def divideDesc : ToolDescriptor :=
  ⟨"divide", [⟨"a", .int⟩, ⟨"b", .int⟩], .float, divideHandler⟩

/-- The registry of the CALCFURQUANA server, built at startup. -/
def mcpCustom1Registry : List ToolDescriptor :=
  [addDesc, subtractDesc, multiplyDesc, divideDesc]

/-! Embedding of the network-backed handlers of
mcp-custom_3/server/multimcpcustom.py and weather_fa.py, and of
mcp-custom-2/mcp_custom_2.py fetch_weather.  The outcome of the outbound
HTTP call is an explicit parameter: either a decoded body or a raised
exception. -/

/-- Outcome of an outbound HTTP request: a decoded body, or an exception
(timeout, HTTP error status, JSON decode failure, anything else). -/
inductive HttpResult (α : Type)
  | ok (body : α)
  | exn (e : PyError)
  deriving DecidableEq

/-- One article of a News API response; every field may be absent. -/
structure Article where
  title : Option String
  sourceName : Option String
  publishedAt : Option String
  url : Option String
  deriving DecidableEq

/-- A News API response body: the articles key may be absent. -/
structure NewsData where
  articles : Option (List Article)
  deriving DecidableEq

/-- make_news_request: returns None when the API key is unset, and catches
every exception (timeout, HTTP status error, anything else), printing it and
returning None; returns the decoded body on success. -/
def makeNewsRequest (hasKey : Bool) (net : HttpResult NewsData) : Option NewsData :=
  if !hasKey then none
  else
    match net with
    | .ok body => some body
    | .exn _ => none

/-- make_nws_request of weather_fa.py: on success returns the decoded body.
Each except handler prints to sys.stderr before its return None, but the
module never imports sys, so on any caught exception the handler itself
raises NameError and the return None line is never reached. -/
def makeNwsRequest {α : Type} (net : HttpResult α) : Except PyError (Option α) :=
  match net with
  | .ok body => .ok (some body)
  | .exn _ => .error ⟨"NameError", "name sys is not defined"⟩

/-- Formatting of one article inside get_news. -/
def formatArticle (a : Article) : String :=
  "Title: " ++ a.title.getD "No title" ++ "\n"
    ++ "Source: " ++ a.sourceName.getD "Unknown source" ++ "\n"
    ++ "Published: " ++ a.publishedAt.getD "Unknown date" ++ "\n"
    ++ "Link: " ++ a.url.getD "#"

/-- Python whitespace, as stripped by str.strip(). -/
def isPySpace (c : Char) : Bool :=
  c = ' ' || c = '\t' || c = '\n' || c = '\r' || c.toNat = 11 || c.toNat = 12

/-- Python str.strip(): drop leading and trailing whitespace. -/
def pyStrip (l : List Char) : List Char :=
  ((l.dropWhile isPySpace).reverse.dropWhile isPySpace).reverse

/-- get_news: empty topic is rejected, a falsy downstream result becomes a
fixed message, a missing or empty articles list becomes a fixed message,
else the first ten articles are formatted and joined. -/
def getNews (topic : String) (hasKey : Bool) (net : HttpResult NewsData) : String :=
  if (pyStrip topic.data).isEmpty then "Topic cannot be empty"
  else
    match makeNewsRequest hasKey net with
    | none => "Unable to fetch news (API key may be missing or invalid)"
    | some data =>
      match data.articles with
      | none => "No articles found for the given topic"
      | some arts =>
        if arts.isEmpty then "No articles found for the given topic"
        else String.intercalate "\n---\n" ((arts.take 10).map formatArticle)

/-- get_news as the dispatcher sees it: the handler never raises, so its
outcome is always a success payload. -/
def getNewsOutcome (topic : String) (hasKey : Bool) (net : HttpResult NewsData) :
    Except PyError String :=
  .ok (getNews topic hasKey net)

/-- fetch_weather of mcp_custom_2.py, body modelled as its set of keys: a
response without a current key raises ValueError, and every caught exception
is printed and re-raised unchanged. -/
def fetchWeather (net : HttpResult (List String)) : Except PyError (List String) :=
  match net with
  | .ok keys =>
    if keys.contains "current" then .ok keys
    else .error ⟨"ValueError", "Invalid weather data received"⟩
  | .exn e => .error e

/-! Embedding of the module-level evaluation of rag_mcp/server/server.py.
Python evaluates a def statement's parameter annotations eagerly, so a name
used in an annotation must already be bound (imported, assigned, or builtin)
when the def executes; otherwise the module load raises NameError. -/

/-- One top-level statement of the rag server module: a statement binding
names, or a decorated tool definition whose annotations use names. -/
inductive RagStmt
  | bind (names : List String)
  | toolDef (tool : String) (annotNames : List String)

/-- Module evaluation state: bound global names and registered tools. -/
structure ModState where
  env : List String
  tools : List String
  deriving DecidableEq

/-- Python builtin names available without import. -/
def ragBuiltins : List String :=
  ["str", "int", "float", "bool", "dict", "list", "all", "print", "open",
   "len", "None", "ValueError", "Exception", "IOError"]

/-- Evaluate one statement: a binding extends the environment; a tool
definition first evaluates its annotation names, raising NameError at the
first unbound one, and otherwise registers the tool. -/
def evalStmt (s : ModState) : RagStmt → Except String ModState
  | .bind ns => .ok ⟨s.env ++ ns, s.tools⟩
  | .toolDef tool ann =>
    match ann.find? (fun n => !(s.env.contains n || ragBuiltins.contains n)) with
    | some missing => .error ("NameError: name " ++ missing ++ " is not defined")
    | none => .ok ⟨s.env ++ [tool], s.tools ++ [tool]⟩

/-- Run the module statements in order, stopping at the first error and
reporting the state reached together with the error. -/
def runStmts : ModState → List RagStmt → ModState × Option String
  | s, [] => (s, none)
  | s, st :: rest =>
    match evalStmt s st with
    | .ok s2 => runStmts s2 rest
    | .error m => (s, some m)

/-- The top-level statements of rag_mcp/server/server.py in source order:
the eight imports, logging setup, the three environment keys, the key
check, the two clients, the FastMCP instance, the two pydantic models, and
the three decorated tool definitions with the names their annotations use. -/
def ragStmts : List RagStmt :=
  [.bind ["os"], .bind ["asyncio"], .bind ["load_dotenv"],
   .bind ["GroundX", "Document"], .bind ["FastMCP"],
   .bind ["BaseModel", "Field"], .bind ["openai"], .bind ["logging"],
   .bind ["logger"],
   .bind ["GROUNDX_API_KEY"], .bind ["OPENAI_API_KEY"], .bind ["BUCKET_ID"],
   .bind [],
   .bind ["client"], .bind [], .bind ["mcp"],
   .bind ["SearchResponse"], .bind ["SearchConfig"],
   .toolDef "process_search_query"
     ["str", "Optional", "SearchConfig", "None", "SearchResponse"],
   .toolDef "search_doc_for_rag_context" ["str"],
   .toolDef "ingest_documents" ["str"]]

/-- Evaluating the rag server module from an empty state. -/
def ragRun : ModState × Option String := runStmts ⟨[], []⟩ ragStmts

/-! Embedding of the notes tools of mcp-custom-2/mcp_custom_2.py.  The notes
file is modelled as its stored character content; text is List Char.  The
file is opened in text mode with default newline handling, so reading
applies universal-newline decoding while writing on POSIX stores the text
unchanged (a written linefeed maps to os.linesep, itself the linefeed). -/

/-- Text-mode universal-newline decoding applied when the file is read: a
carriage return followed by a linefeed, and a bare carriage return, are both
translated to a single linefeed. -/
def decodeNewlines : List Char → List Char
  | [] => []
  | [c] => if c = '\r' then ['\n'] else [c]
  | c :: d :: rest =>
    if c = '\r' then
      if d = '\n' then '\n' :: decodeNewlines rest
      else '\n' :: decodeNewlines (d :: rest)
    else c :: decodeNewlines (d :: rest)

/-- readlines on the decoded stream: split into lines, each keeping its
trailing linefeed; a final chunk without one is kept as is.  After
decoding, the linefeed is the only line separator left. -/
def readlinesAux : List Char → List Char → List (List Char)
  | [], acc => if acc.isEmpty then [] else [acc.reverse]
  | c :: rest, acc =>
    if c = '\n' then (acc.reverse ++ ['\n']) :: readlinesAux rest []
    else readlinesAux rest (c :: acc)

/-- readlines on a whole decoded stream. -/
def readlines (content : List Char) : List (List Char) :=
  readlinesAux content []

/-- add_note: append the stripped message plus a newline to the file and
return the confirmation string; result is (new file content, return value).
Text-mode writing on POSIX stores the characters unchanged. -/
def addNote (file : List Char) (message : List Char) : List Char × List Char :=
  (file ++ pyStrip message ++ ['\n'], "Note saved successfully!".data)

/-- get_latest_note: read the file in text mode (universal-newline decode),
split into lines, and return the stripped last line, or a default when the
file is empty. -/
def getLatestNote (file : List Char) : List Char :=
  match (readlines (decodeNewlines file)).getLast? with
  | some l => pyStrip l
  | none => "No notes yet.".data

/-- File contents producible by the program itself: the notes file starts
empty (ensure_file) and is only ever written by add_note. -/
inductive ReachableNotes : List Char → Prop
  | init : ReachableNotes []
  | add (f m : List Char) : ReachableNotes f → ReachableNotes (addNote f m).1

/-! Helper lemmas about the dispatcher. -/

theorem dispatchT_success_of (reg : List ToolDescriptor) (name : String)
    (args : List (String × PyVal)) (d : ToolDescriptor) (v : PyVal)
    (hfind : mcpFind reg name = some d)
    (hbad : badParams d.params args = [])
    (hrun : d.handler args = .ok v) :
    dispatchT reg name args = (.success v, true) := by
  unfold dispatchT
  rw [hfind]
  simp [hbad, hrun]

theorem dispatchT_handlerError_of (reg : List ToolDescriptor) (name : String)
    (args : List (String × PyVal)) (d : ToolDescriptor) (e : PyError)
    (hfind : mcpFind reg name = some d)
    (hbad : badParams d.params args = [])
    (hrun : d.handler args = .error e) :
    dispatchT reg name args = (.handlerError e.msg, true) := by
  unfold dispatchT
  rw [hfind]
  simp [hbad, hrun]

/-- C2: a handler that raises during dispatch is surfaced to the caller as a
structured HandlerError preserving the original exception message, and the
dispatcher goes on to serve the remaining invocations unchanged. -/
theorem dispatch_wraps_handler_error (reg : List ToolDescriptor) (name : String)
    (args : List (String × PyVal)) (d : ToolDescriptor) (e : PyError)
    (hfind : mcpFind reg name = some d)
    (hbad : badParams d.params args = [])
    (hrun : d.handler args = .error e) :
    ∀ rest, serveAll reg ((name, args) :: rest)
      = .handlerError e.msg :: serveAll reg rest := by
  intro rest
  have h := dispatchT_handlerError_of reg name args d e hfind hbad hrun
  simp [serveAll, dispatch, h]

/-- Witness for C2: divide with b = 0 raises ValueError, the dispatcher
reports HandlerError with that exact message, and the following add request
is still served. -/
theorem dispatch_wraps_handler_error_witness :
    serveAll mcpCustom1Registry
        [("divide", [("a", PyVal.int 1), ("b", PyVal.int 0)]),
         ("add", [("a", PyVal.int 2), ("b", PyVal.int 3)])]
      = DispatchResult.handlerError "Division by zero is not allowed"
        :: serveAll mcpCustom1Registry [("add", [("a", PyVal.int 2), ("b", PyVal.int 3)])] :=
  dispatch_wraps_handler_error mcpCustom1Registry "divide"
    [("a", PyVal.int 1), ("b", PyVal.int 0)] divideDesc
    ⟨"ValueError", "Division by zero is not allowed"⟩ rfl rfl rfl
    [("add", [("a", PyVal.int 2), ("b", PyVal.int 3)])]

/-- C3: when the arguments of a known tool fail schema validation, dispatch
returns InvalidArguments listing the offending parameters and the handler is
not executed; in particular add with a bound to a string is rejected with
offending parameter a. -/
theorem invalid_args_precede_handler :
    (∀ (reg : List ToolDescriptor) (name : String) (args : List (String × PyVal))
        (d : ToolDescriptor), mcpFind reg name = some d →
        badParams d.params args ≠ [] →
        dispatchT reg name args = (.invalidArguments (badParams d.params args), false))
    ∧ dispatchT mcpCustom1Registry "add" [("a", PyVal.str "x"), ("b", PyVal.int 3)]
        = (.invalidArguments ["a"], false) := by
  constructor
  · intro reg name args d hfind hbad
    unfold dispatchT
    rw [hfind]
    simp [hbad]
  · rfl

/-- Witness for C3: the general statement applied to the add tool with a
string bound to parameter a. -/
theorem invalid_args_precede_handler_witness :
    dispatchT mcpCustom1Registry "add" [("a", PyVal.str "x"), ("b", PyVal.int 3)]
      = (.invalidArguments
          (badParams addDesc.params [("a", PyVal.str "x"), ("b", PyVal.int 3)]), false) :=
  invalid_args_precede_handler.1 mcpCustom1Registry "add"
    [("a", PyVal.str "x"), ("b", PyVal.int 3)] addDesc rfl (by decide)

/-- C4: dispatching a name absent from the registry returns the structured
UnknownTool result without running any handler; dispatch is a total
function, so no invocation aborts the process.  In particular
nonexistent_tool on the calculator registry. -/
theorem unknown_tool_is_structured :
    (∀ (reg : List ToolDescriptor) (name : String) (args : List (String × PyVal)),
        (∀ d, d ∈ reg → d.name ≠ name) →
        dispatchT reg name args = (.unknownTool name, false))
    ∧ dispatch mcpCustom1Registry "nonexistent_tool" []
        = .unknownTool "nonexistent_tool" := by
  constructor
  · intro reg name args h
    have hf : mcpFind reg name = none := by
      apply List.find?_eq_none.mpr
      intro d hd
      simpa using h d hd
    unfold dispatchT
    rw [hf]
  · rfl

/-- Witness for C4: the general statement applied to the calculator registry
and the name nonexistent_tool. -/
theorem unknown_tool_is_structured_witness :
    dispatchT mcpCustom1Registry "nonexistent_tool" []
      = (.unknownTool "nonexistent_tool", false) :=
  unknown_tool_is_structured.1 mcpCustom1Registry "nonexistent_tool" []
    (fun d hd => by
      simp only [mcpCustom1Registry, List.mem_cons, List.not_mem_nil, or_false] at hd
      rcases hd with rfl | rfl | rfl | rfl <;> decide)

/-- C5: dispatching add with a = 2 and b = 3 returns the success payload 5,
and for all integers the add handler returns their sum. -/
theorem add_dispatch_returns_sum :
    dispatch mcpCustom1Registry "add" [("a", PyVal.int 2), ("b", PyVal.int 3)]
      = .success (.int 5)
    ∧ ∀ a b : Int,
        addHandler [("a", PyVal.int a), ("b", PyVal.int b)] = .ok (.int (a + b)) :=
  ⟨rfl, fun _ _ => rfl⟩

/-- C6: every handler in the calculator registry is type-correct for its
declared return type, and dispatch with schema-conforming arguments returns
the declared success payload: an integer for add, subtract and multiply on
all integers, and a float (exact rational) for divide whenever b is not 0. -/
theorem dispatch_well_typed :
    (∀ d, d ∈ mcpCustom1Registry → ∀ (args : List (String × PyVal)) (v : PyVal),
        d.handler args = .ok v → v.typeOf = d.retTy)
    ∧ (∀ a b : Int,
        dispatch mcpCustom1Registry "add" [("a", PyVal.int a), ("b", PyVal.int b)]
          = .success (.int (a + b))
        ∧ dispatch mcpCustom1Registry "subtract" [("a", PyVal.int a), ("b", PyVal.int b)]
          = .success (.int (a - b))
        ∧ dispatch mcpCustom1Registry "multiply" [("a", PyVal.int a), ("b", PyVal.int b)]
          = .success (.int (a * b)))
    ∧ (∀ a b : Int, b ≠ 0 →
        dispatch mcpCustom1Registry "divide" [("a", PyVal.int a), ("b", PyVal.int b)]
          = .success (.rat (pyDiv a b))) := by
  refine ⟨?_, ?_, ?_⟩
  · intro d hd args v hok
    simp only [mcpCustom1Registry, List.mem_cons, List.not_mem_nil, or_false] at hd
    rcases hd with rfl | rfl | rfl | rfl
    · replace hok : addHandler args = .ok v := hok
      show v.typeOf = PyType.int
      unfold addHandler at hok
      split at hok
      · injection hok with h; subst h; rfl
      · simp at hok
    · replace hok : subtractHandler args = .ok v := hok
      show v.typeOf = PyType.int
      unfold subtractHandler at hok
      split at hok
      · injection hok with h; subst h; rfl
      · simp at hok
    · replace hok : multiplyHandler args = .ok v := hok
      show v.typeOf = PyType.int
      unfold multiplyHandler at hok
      split at hok
      · injection hok with h; subst h; rfl
      · simp at hok
    · replace hok : divideHandler args = .ok v := hok
      show v.typeOf = PyType.float
      unfold divideHandler at hok
      split at hok
      · split at hok
        · simp at hok
        · injection hok with h; subst h; rfl
      · simp at hok
  · intro a b
    refine ⟨?_, ?_, ?_⟩
    · exact congrArg Prod.fst
        (dispatchT_success_of mcpCustom1Registry "add"
          [("a", PyVal.int a), ("b", PyVal.int b)] addDesc (.int (a + b)) rfl rfl rfl)
    · exact congrArg Prod.fst
        (dispatchT_success_of mcpCustom1Registry "subtract"
          [("a", PyVal.int a), ("b", PyVal.int b)] subtractDesc (.int (a - b)) rfl rfl rfl)
    · exact congrArg Prod.fst
        (dispatchT_success_of mcpCustom1Registry "multiply"
          [("a", PyVal.int a), ("b", PyVal.int b)] multiplyDesc (.int (a * b)) rfl rfl rfl)
  · intro a b hb
    have hrun : divideDesc.handler [("a", PyVal.int a), ("b", PyVal.int b)]
        = .ok (.rat (pyDiv a b)) := by
      have hred : divideDesc.handler [("a", PyVal.int a), ("b", PyVal.int b)]
          = if b = 0
            then .error ⟨"ValueError", "Division by zero is not allowed"⟩
            else .ok (.rat (pyDiv a b)) := rfl
      rw [hred, if_neg hb]
    exact congrArg Prod.fst
      (dispatchT_success_of mcpCustom1Registry "divide"
        [("a", PyVal.int a), ("b", PyVal.int b)] divideDesc (.rat (pyDiv a b)) rfl rfl hrun)

/-- Witness for C6: divide at a = 7, b = 2 dispatches to the float payload
7/2, and the type-soundness part applied to the add descriptor. -/
theorem dispatch_well_typed_witness :
    dispatch mcpCustom1Registry "divide" [("a", PyVal.int 7), ("b", PyVal.int 2)]
      = .success (.rat (pyDiv 7 2))
    ∧ PyVal.typeOf (.int 5) = addDesc.retTy :=
  ⟨dispatch_well_typed.2.2 7 2 (by decide),
   dispatch_well_typed.1 addDesc (List.mem_cons_self _ _)
     [("a", PyVal.int 2), ("b", PyVal.int 3)] (.int 5) rfl⟩

/-- C7: register fails whenever the name is already registered, the startup
registration of the four calculator tools succeeds and yields pairwise
distinct names, and serving requests never mutates the registry. -/
theorem registry_unique_and_immutable :
    (∀ (reg : List ToolDescriptor) (d : ToolDescriptor),
        (∃ t, t ∈ reg ∧ t.name = d.name) → ∃ m, register reg d = .error m)
    ∧ registerAll [addDesc, subtractDesc, multiplyDesc, divideDesc]
        = .ok mcpCustom1Registry
    ∧ (mcpCustom1Registry.map ToolDescriptor.name).Nodup
    ∧ ∀ (name : String) (args : List (String × PyVal)),
        (serve mcpCustom1Registry name args).1 = mcpCustom1Registry := by
  refine ⟨?_, rfl, by decide, fun name args => rfl⟩
  rintro reg d ⟨t, ht, hname⟩
  refine ⟨"duplicate tool name " ++ d.name, ?_⟩
  have hc : reg.any (fun t => t.name == d.name) = true :=
    List.any_eq_true.mpr ⟨t, ht, by simp [hname]⟩
  unfold register
  rw [if_pos hc]

/-- Witness for C7: registering add a second time on the built registry
fails. -/
theorem registry_unique_and_immutable_witness :
    ∃ m, register mcpCustom1Registry addDesc = .error m :=
  registry_unique_and_immutable.1 mcpCustom1Registry addDesc
    ⟨addDesc, List.mem_cons_self _ _, rfl⟩

/-- C9: the divide handler raises ValueError with message Division by zero
is not allowed exactly when b = 0, otherwise returns the exact quotient a/b
as a float, and never raises ZeroDivisionError. -/
theorem divide_value_error_iff_zero :
    ∀ a b : Int,
      (divideHandler [("a", PyVal.int a), ("b", PyVal.int b)]
          = .error ⟨"ValueError", "Division by zero is not allowed"⟩ ↔ b = 0)
      ∧ (b ≠ 0 → divideHandler [("a", PyVal.int a), ("b", PyVal.int b)]
          = .ok (.rat (pyDiv a b)))
      ∧ ∀ e : PyError, divideHandler [("a", PyVal.int a), ("b", PyVal.int b)]
          = .error e → e.kind = "ValueError" ∧ e.kind ≠ "ZeroDivisionError" := by
  intro a b
  have hred : divideHandler [("a", PyVal.int a), ("b", PyVal.int b)]
      = if b = 0 then .error ⟨"ValueError", "Division by zero is not allowed"⟩
        else .ok (.rat (pyDiv a b)) := rfl
  refine ⟨?_, ?_, ?_⟩
  · rw [hred]
    by_cases hb : b = 0 <;> simp [hb]
  · intro hb
    rw [hred, if_neg hb]
  · intro e he
    rw [hred] at he
    by_cases hb : b = 0
    · rw [if_pos hb] at he
      injection he with h
      subst h
      exact ⟨rfl, by decide⟩
    · rw [if_neg hb] at he
      exact absurd he (by simp)

/-- Witness for C9: divide at a = 1, b = 2 returns the rational 1/2. -/
theorem divide_value_error_iff_zero_witness :
    divideHandler [("a", PyVal.int 1), ("b", PyVal.int 2)] = .ok (.rat (pyDiv 1 2)) :=
  (divide_value_error_iff_zero 1 2).2.1 (by decide)

/-- Counterexample for C1: a network timeout inside get_news is converted by
make_news_request into a None sentinel and by get_news into a plain success
string, so this downstream failure does not reach the caller as structured
error data. -/
theorem news_timeout_swallowed_cex :
    makeNewsRequest true (.exn ⟨"TimeoutException", "Request timed out"⟩) = none
    ∧ getNewsOutcome "technology" true (.exn ⟨"TimeoutException", "Request timed out"⟩)
        = .ok "Unable to fetch news (API key may be missing or invalid)" :=
  ⟨rfl, rfl⟩

/-- C1 amended: raising handlers such as fetch_weather propagate every
downstream failure unchanged with its message intact, but make_news_request
converts every downstream exception into a None sentinel and get_news
converts that sentinel into a plain success string. -/
theorem news_handlers_soften_failures :
    ∀ e : PyError,
      makeNewsRequest true (.exn e) = none
      ∧ getNewsOutcome "technology" true (.exn e)
          = .ok "Unable to fetch news (API key may be missing or invalid)"
      ∧ fetchWeather (.exn e) = .error e :=
  fun _ => ⟨rfl, rfl, rfl⟩

/-- C8: evaluating the rag server module raises NameError at the annotation
of process_search_query because Optional is never bound, so the module load
aborts with no rag tool registered. -/
theorem rag_module_load_name_error :
    ragRun.2 = some "NameError: name Optional is not defined"
    ∧ ragRun.1.tools = [] :=
  ⟨rfl, rfl⟩

/-! Helper lemmas for the notes-file development. -/

theorem dropWhile_head_false {α : Type} (p : α → Bool) :
    ∀ (l : List α) (c : α) (rest : List α), l.dropWhile p = c :: rest → p c = false := by
  intro l
  induction l with
  | nil => intro c rest h; simp [List.dropWhile] at h
  | cons a l ih =>
    intro c rest h
    by_cases hp : p a = true
    · rw [List.dropWhile_cons_of_pos hp] at h
      exact ih c rest h
    · rw [List.dropWhile_cons_of_neg hp] at h
      injection h with h1 h2
      subst h1
      simpa using hp

theorem dropWhile_getLast_eq {α : Type} (p : α → Bool) :
    ∀ l : List α, l.dropWhile p ≠ [] → (l.dropWhile p).getLast? = l.getLast? := by
  intro l
  induction l with
  | nil => intro h; simp [List.dropWhile] at h
  | cons a l ih =>
    intro h
    by_cases hp : p a = true
    · rw [List.dropWhile_cons_of_pos hp] at h ⊢
      rw [ih h]
      have hl : l ≠ [] := by
        intro hnil
        subst hnil
        simp [List.dropWhile] at h
      rcases l with _ | ⟨b, l⟩
      · exact absurd rfl hl
      · rw [List.getLast?_cons_cons]
    · rw [List.dropWhile_cons_of_neg hp]

theorem pyStrip_head_not_space (m : List Char) (c : Char) (rest : List Char)
    (h : pyStrip m = c :: rest) : isPySpace c = false := by
  unfold pyStrip at h
  set t := ((m.dropWhile isPySpace).reverse).dropWhile isPySpace with ht
  have htne : t ≠ [] := by
    intro hnil
    rw [hnil] at h
    simp at h
  have hc : t.getLast? = some c := by
    rw [← List.head?_reverse, h]
    rfl
  rw [dropWhile_getLast_eq isPySpace _ htne] at hc
  rw [List.getLast?_reverse] at hc
  rcases hd : (m.dropWhile isPySpace) with _ | ⟨d, rest2⟩
  · rw [hd] at hc; simp at hc
  · rw [hd] at hc
    simp only [List.head?_cons, Option.some.injEq] at hc
    subst hc
    exact dropWhile_head_false isPySpace m d rest2 hd

theorem pyStrip_getLast_not_space (m : List Char) (c : Char)
    (h : (pyStrip m).getLast? = some c) : isPySpace c = false := by
  unfold pyStrip at h
  rw [List.getLast?_reverse] at h
  rcases hd : ((m.dropWhile isPySpace).reverse).dropWhile isPySpace with _ | ⟨d, rest2⟩
  · rw [hd] at h; simp at h
  · rw [hd] at h
    simp only [List.head?_cons, Option.some.injEq] at h
    subst h
    exact dropWhile_head_false isPySpace _ d rest2 hd

theorem pyStrip_append_newline (s : List Char) (hne : s ≠ [])
    (hhead : ∀ c rest, s = c :: rest → isPySpace c = false)
    (hlast : ∀ c, s.getLast? = some c → isPySpace c = false) :
    pyStrip (s ++ ['\n']) = s := by
  rcases hs : s with _ | ⟨c, rest⟩
  · exact absurd hs hne
  subst hs
  unfold pyStrip
  have h1 : (c :: rest ++ ['\n']).dropWhile isPySpace = c :: rest ++ ['\n'] := by
    rw [List.cons_append]
    exact List.dropWhile_cons_of_neg (by simp [hhead c rest rfl])
  rw [h1]
  have h2 : (c :: rest ++ ['\n']).reverse = '\n' :: (c :: rest).reverse := by
    rw [List.reverse_append]
    rfl
  rw [h2]
  have h3 : ('\n' :: (c :: rest).reverse).dropWhile isPySpace
      = ((c :: rest).reverse).dropWhile isPySpace :=
    List.dropWhile_cons_of_pos (by decide)
  rw [h3]
  have h4 : ((c :: rest).reverse).dropWhile isPySpace = (c :: rest).reverse := by
    rcases hr : (c :: rest).reverse with _ | ⟨d, rest2⟩
    · simp at hr
    · have hd : (c :: rest).getLast? = some d := by
        rw [← List.head?_reverse, hr]
        rfl
      rw [List.dropWhile_cons_of_neg (by simp [hlast d hd])]
  rw [h4, List.reverse_reverse]

theorem readlinesAux_no_newline :
    ∀ (s : List Char), '\n' ∉ s →
      ∀ acc, readlinesAux (s ++ ['\n']) acc = [acc.reverse ++ s ++ ['\n']] := by
  intro s
  induction s with
  | nil =>
    intro _ acc
    simp [readlinesAux]
  | cons c s ih =>
    intro hnl acc
    have hc : ¬(c = '\n') := fun h => hnl (by rw [h]; exact List.mem_cons_self _ _)
    have hs : '\n' ∉ s := fun h => hnl (List.mem_cons_of_mem _ h)
    rw [List.cons_append]
    unfold readlinesAux
    rw [if_neg hc, ih hs (c :: acc)]
    simp

theorem readlinesAux_cons (c : Char) (rest acc : List Char) :
    readlinesAux (c :: rest) acc
      = if c = '\n' then (acc.reverse ++ ['\n']) :: readlinesAux rest []
        else readlinesAux rest (c :: acc) := rfl

theorem readlinesAux_split :
    ∀ (f : List Char), f.getLast? = some '\n' →
      ∀ (t : List Char) (acc : List Char),
        readlinesAux (f ++ t) acc = readlinesAux f acc ++ readlinesAux t [] := by
  intro f
  induction f with
  | nil => intro h; simp at h
  | cons c f ih =>
    intro hlast t acc
    rcases f with _ | ⟨d, f⟩
    · have hc : c = '\n' := by
        simpa using hlast
      subst hc
      rw [List.cons_append, readlinesAux_cons, if_pos rfl, readlinesAux_cons,
        if_pos rfl]
      rfl
    · have hlast2 : (d :: f).getLast? = some '\n' := by
        rw [← List.getLast?_cons_cons]
        exact hlast
      by_cases hc : c = '\n'
      · subst hc
        rw [List.cons_append, readlinesAux_cons, if_pos rfl, readlinesAux_cons,
          if_pos rfl, ih hlast2 t []]
        rfl
      · rw [List.cons_append, readlinesAux_cons, if_neg hc, readlinesAux_cons,
          if_neg hc, ih hlast2 t (c :: acc)]

theorem reachable_ends_newline (f : List Char) (h : ReachableNotes f) :
    f = [] ∨ f.getLast? = some '\n' := by
  induction h with
  | init => exact Or.inl rfl
  | add g m _ _ =>
    right
    show ((g ++ pyStrip m) ++ ['\n']).getLast? = some '\n'
    exact List.getLast?_concat _

theorem decode_single (c : Char) :
    decodeNewlines [c] = if c = '\r' then ['\n'] else [c] := rfl

theorem decode_pair (c d : Char) (rest : List Char) :
    decodeNewlines (c :: d :: rest)
      = if c = '\r' then
          if d = '\n' then '\n' :: decodeNewlines rest
          else '\n' :: decodeNewlines (d :: rest)
        else c :: decodeNewlines (d :: rest) := rfl

theorem decode_no_cr :
    ∀ (s t : List Char), '\r' ∉ s →
      decodeNewlines (s ++ t) = s ++ decodeNewlines t := by
  intro s
  induction s with
  | nil => intro t _; rfl
  | cons c s ih =>
    intro t h
    rw [List.mem_cons, not_or] at h
    obtain ⟨hc, hs⟩ := h
    have hc2 : ¬ c = '\r' := fun e => hc e.symm
    rcases s with _ | ⟨d, s2⟩
    · rcases t with _ | ⟨e, t2⟩
      · show decodeNewlines [c] = [c] ++ decodeNewlines []
        rw [decode_single, if_neg hc2]
        rfl
      · show decodeNewlines (c :: e :: t2) = c :: decodeNewlines (e :: t2)
        rw [decode_pair, if_neg hc2]
    · show decodeNewlines (c :: d :: (s2 ++ t)) = c :: d :: (s2 ++ decodeNewlines t)
      rw [decode_pair, if_neg hc2]
      exact congrArg (List.cons c) (ih t hs)

theorem decode_append_safe :
    ∀ (f t : List Char), (∀ c, f.getLast? = some c → ¬ c = '\r') →
      decodeNewlines (f ++ t) = decodeNewlines f ++ decodeNewlines t
  | [], _, _ => rfl
  | [c], t, h => by
    have hc : ¬ c = '\r' := h c rfl
    rcases t with _ | ⟨e, t2⟩
    · show decodeNewlines [c] = decodeNewlines [c] ++ decodeNewlines []
      have h0 : decodeNewlines [] = [] := rfl
      rw [h0, List.append_nil]
    · show decodeNewlines (c :: e :: t2)
        = decodeNewlines [c] ++ decodeNewlines (e :: t2)
      rw [decode_pair, if_neg hc, decode_single, if_neg hc]
      rfl
  | c :: d :: f2, t, h => by
    have h2 : ∀ x, (d :: f2).getLast? = some x → ¬ x = '\r' := by
      intro x hx
      apply h x
      rw [List.getLast?_cons_cons]
      exact hx
    show decodeNewlines (c :: d :: (f2 ++ t))
        = decodeNewlines (c :: d :: f2) ++ decodeNewlines t
    by_cases hc : c = '\r'
    · subst hc
      by_cases hd : d = '\n'
      · subst hd
        rw [decode_pair, if_pos rfl, if_pos rfl, decode_pair, if_pos rfl,
          if_pos rfl]
        have h3 : ∀ x, f2.getLast? = some x → ¬ x = '\r' := by
          intro x hx
          apply h2 x
          rcases f2 with _ | ⟨y, f3⟩
          · simp at hx
          · rw [List.getLast?_cons_cons]
            exact hx
        exact congrArg (List.cons '\n') (decode_append_safe f2 t h3)
      · rw [decode_pair, if_pos rfl, if_neg hd, decode_pair, if_pos rfl,
          if_neg hd]
        exact congrArg (List.cons '\n') (decode_append_safe (d :: f2) t h2)
    · rw [decode_pair, if_neg hc, decode_pair, if_neg hc]
      exact congrArg (List.cons c) (decode_append_safe (d :: f2) t h2)

theorem reachable_last_not_cr (f : List Char) (h : ReachableNotes f) :
    ∀ c, f.getLast? = some c → ¬ c = '\r' := by
  intro c hc
  rcases reachable_ends_newline f h with hnil | hnl
  · rw [hnil] at hc
    simp at hc
  · rw [hnl] at hc
    injection hc with hc
    subst hc
    decide

theorem decode_reachable_ends_newline (f : List Char) (h : ReachableNotes f) :
    decodeNewlines f = [] ∨ (decodeNewlines f).getLast? = some '\n' := by
  induction h with
  | init => exact Or.inl rfl
  | add g m hg _ =>
    right
    have hlast : ∀ c, (g ++ pyStrip m).getLast? = some c → ¬ c = '\r' := by
      intro c hc
      rcases hsm : pyStrip m with _ | ⟨x, xs⟩
      · rw [hsm, List.append_nil] at hc
        exact reachable_last_not_cr g hg c hc
      · rw [hsm] at hc
        rw [List.getLast?_append_of_ne_nil g (by simp)] at hc
        have hsp : isPySpace c = false := by
          apply pyStrip_getLast_not_space m c
          rw [hsm]
          exact hc
        intro he
        subst he
        exact absurd hsp (by decide)
    show (decodeNewlines ((g ++ pyStrip m) ++ ['\n'])).getLast? = some '\n'
    rw [decode_append_safe (g ++ pyStrip m) ['\n'] hlast]
    have hlf : decodeNewlines ['\n'] = ['\n'] := rfl
    rw [hlf]
    exact List.getLast?_concat _

/-- Counterexample for C10: the three-character message a CR b satisfies the
claim's hypotheses (its stripped form is itself, non-empty, and contains no
newline character), yet after add_note the text-mode read translates the
bare carriage return to a linefeed, so get_latest_note returns the single
character b, not the stripped message. -/
theorem note_carriage_return_cex :
    pyStrip ['a', '\r', 'b'] ≠ []
    ∧ '\n' ∉ pyStrip ['a', '\r', 'b']
    ∧ getLatestNote (addNote [] ['a', '\r', 'b']).1 = ['b']
    ∧ getLatestNote (addNote [] ['a', '\r', 'b']).1 ≠ pyStrip ['a', '\r', 'b'] :=
  ⟨by decide, by decide, rfl, by decide⟩

/-- C10 amended: on a notes file written only by the program, add_note
followed by get_latest_note returns the stripped message, provided the
stripped message is non-empty and contains no newline and no carriage
return; and add_note itself returns the confirmation string. -/
theorem add_note_roundtrip (file m : List Char)
    (hreach : ReachableNotes file)
    (hne : pyStrip m ≠ [])
    (hnl : '\n' ∉ pyStrip m)
    (hcr : '\r' ∉ pyStrip m) :
    (addNote file m).2 = "Note saved successfully!".data
    ∧ getLatestNote (addNote file m).1 = pyStrip m := by
  refine ⟨rfl, ?_⟩
  have hstripped : pyStrip (pyStrip m ++ ['\n']) = pyStrip m :=
    pyStrip_append_newline (pyStrip m) hne
      (fun c rest h => pyStrip_head_not_space m c rest h)
      (fun c h => pyStrip_getLast_not_space m c h)
  have hone : readlinesAux (pyStrip m ++ ['\n']) [] = [pyStrip m ++ ['\n']] := by
    rw [readlinesAux_no_newline (pyStrip m) hnl []]
    rfl
  have hdecode : decodeNewlines (addNote file m).1
      = decodeNewlines file ++ (pyStrip m ++ ['\n']) := by
    have h1 : (addNote file m).1 = file ++ (pyStrip m ++ ['\n']) := by
      show (file ++ pyStrip m) ++ ['\n'] = file ++ (pyStrip m ++ ['\n'])
      rw [List.append_assoc]
    rw [h1, decode_append_safe file (pyStrip m ++ ['\n'])
        (reachable_last_not_cr file hreach),
      decode_no_cr (pyStrip m) ['\n'] hcr]
    rfl
  unfold getLatestNote readlines
  rw [hdecode]
  rcases decode_reachable_ends_newline file hreach with hnil | hlast
  · rw [hnil, List.nil_append, hone]
    simp [hstripped]
  · rw [readlinesAux_split (decodeNewlines file) hlast (pyStrip m ++ ['\n']) [],
      hone, List.getLast?_concat]
    simp [hstripped]

/-- Witness for C10: adding the note with leading and trailing spaces around
the two characters h i to an empty file and reading the latest note returns
the stripped two-character note. -/
theorem add_note_roundtrip_witness :
    (addNote [] [' ', 'h', 'i', ' ']).2 = "Note saved successfully!".data
    ∧ getLatestNote (addNote [] [' ', 'h', 'i', ' ']).1 = pyStrip [' ', 'h', 'i', ' '] :=
  add_note_roundtrip [] [' ', 'h', 'i', ' '] ReachableNotes.init (by decide) (by decide)
    (by decide)
